import Mathlib

/-!
Shallow embedding of the access-control rules file (rules_version 2,
service cloud.firestore) and of the clients-page aggregation of the
last-minute-app repository, together with theorems settling the frozen
claims about them.

Conventions of the embedding:
* request.auth is modelled as an optional pair of a uid and an email
  (none when the caller is unauthenticated).
* The teamMembers collection, the only collection the rules read from
  (via exists(...) and get(...)), is modelled as a partial map from
  document id to document data.
* Each allow clause of a match block becomes one disjunct of a Bool-valued
  decision function; rule evaluation is the OR of all matching allow
  clauses, and no clause matching means deny.
* A clause that dereferences resource.data during a create (where the
  resource does not yet exist) errors at evaluation time and therefore
  does not grant; such clauses are omitted from the create decisions,
  with a comment at each omission.
* A list (query) request is evaluated against the document-level match of
  the collection: it is allowed only when the read condition is
  guaranteed for every document that could appear in the result set.  A
  match block naming a bare collection path (such as the match /salons
  block of the source) matches no document path and therefore grants
  nothing; the rules engine consults only the document-level matches.
-/

/-- Authenticated caller data: request.auth.uid and request.auth.email. -/
structure AuthUser where
  uid : String
  email : String
deriving Repr, DecidableEq

/-- Caller authentication state: request.auth, none when unauthenticated. -/
abbrev Auth := Option AuthUser

/-- Data of a teamMembers document, restricted to the fields the rules read. -/
structure TeamMemberDoc where
  salonId : String
  userId : String
deriving Repr, DecidableEq

/-- The teamMembers collection: document id to document data, none when the
document does not exist. -/
abbrev TeamMembersDB := String → Option TeamMemberDoc

/-- Rules helper isAuthenticated(): request.auth != null. -/
def isAuthenticated (auth : Auth) : Bool :=
  auth.isSome

/-- Rules helper isSalonOwner(salonId): isAuthenticated() and
request.auth.uid == salonId. -/
def isSalonOwner (auth : Auth) (salonId : String) : Bool :=
  match auth with
  | none => false
  | some u => u.uid == salonId

/-- Rules helper isTeamMember(salonId): isAuthenticated(), the teamMembers
document keyed by request.auth.uid exists, and its salonId field equals the
argument.  A missing document makes the exists(...) conjunct false. -/
def isTeamMember (db : TeamMembersDB) (auth : Auth) (salonId : String) : Bool :=
  match auth with
  | none => false
  | some u =>
    match db u.uid with
    | none => false
    | some rec => rec.salonId == salonId

/-- Rules helper hasTeamMemberRecord(): isAuthenticated() and the teamMembers
document keyed by request.auth.uid exists. -/
def hasTeamMemberRecord (db : TeamMembersDB) (auth : Auth) : Bool :=
  match auth with
  | none => false
  | some u => (db u.uid).isSome

/-- Rules helper hasSalonAccess(salonId): isSalonOwner(salonId) or
isTeamMember(salonId). -/
def hasSalonAccess (db : TeamMembersDB) (auth : Auth) (salonId : String) : Bool :=
  isSalonOwner auth salonId || isTeamMember db auth salonId

/-- Rules helper isPlatformAdmin(): isAuthenticated() and request.auth.email
equal to one of the two hardcoded addresses. -/
def isPlatformAdmin (auth : Auth) : Bool :=
  match auth with
  | none => false
  | some u => u.email == "ameet@gofisherman.com" || u.email == "ameetk96@gmail.com"

/-- Data of a salons document, restricted to the field the rules read
(resource.data.slug, nullable). -/
structure SalonDoc where
  slug : Option String
deriving Repr, DecidableEq

/-- Clause of the salons match inlining the team-member lookup by the userId
field: isAuthenticated(), the teamMembers document keyed by request.auth.uid
exists, its userId equals request.auth.uid and its salonId equals the salon
document id. -/
def salonReadTeamUserClause (db : TeamMembersDB) (auth : Auth) (salonId : String) : Bool :=
  match auth with
  | none => false
  | some u =>
    match db u.uid with
    | none => false
    | some rec => rec.userId == u.uid && rec.salonId == salonId

/-- Read decision of match /salons/ with document id salonId: OR of the six
allow read clauses.  The owner clause is isAuthenticated() with
request.auth.uid == salonId; the first team clause inlines the same lookup as
the isTeamMember helper; the slug clause is resource.data.slug != null; the
final clause is the unconditional allow read if true. -/
def salonRead (db : TeamMembersDB) (auth : Auth) (salonId : String) (doc : SalonDoc) : Bool :=
  isSalonOwner auth salonId
  || isTeamMember db auth salonId
  || salonReadTeamUserClause db auth salonId
  || doc.slug.isSome
  || isPlatformAdmin auth
  || true

/-- Proposed document body of a create on bookingRequests, restricted to the
field the create clause reads (request.resource.data.salonId, nullable). -/
structure BookingRequestProposed where
  salonId : Option String
deriving Repr, DecidableEq

/-- Create decision of match /bookingRequests/: the create clause is
request.resource.data.salonId != null and does not consult request.auth or
the teamMembers collection.  The read, write clause of the block dereferences
resource.data, which does not exist during a create, so that clause errors
and grants nothing here; the caller and database arguments are retained to
express that the decision ignores them. -/
def bookingRequestCreate (_db : TeamMembersDB) (_auth : Auth)
    (p : BookingRequestProposed) : Bool :=
  p.salonId.isSome

/-- Read decision of match /teamMembers/ on an existing document:
isAuthenticated() and (isSalonOwner(resource.data.salonId) or
request.auth.uid == resource.data.userId). -/
def teamMemberRead (auth : Auth) (doc : TeamMemberDoc) : Bool :=
  isAuthenticated auth &&
    (isSalonOwner auth doc.salonId ||
      (match auth with
       | none => false
       | some u => u.uid == doc.userId))

/-- Proposed document body of a create on teamMembers, restricted to the
fields the rules read. -/
structure TeamMemberProposed where
  salonId : Option String
  userId : String
deriving Repr, DecidableEq

/-- Create decision of match /teamMembers/: isAuthenticated(),
request.resource.data.salonId != null, and
isSalonOwner(request.resource.data.salonId).  The allow write clause of the
block dereferences resource.data, which does not exist during a create, so it
errors and grants nothing here. -/
def teamMemberCreate (auth : Auth) (p : TeamMemberProposed) : Bool :=
  isAuthenticated auth &&
    (match p.salonId with
     | none => false
     | some s => isSalonOwner auth s)

/-- Read decision of match /invitations/ on an existing document with salonId
field given by the argument: isSalonOwner(resource.data.salonId). -/
def invitationRead (auth : Auth) (salonId : String) : Bool :=
  isSalonOwner auth salonId

/-- Write (update/delete) decision of match /invitations/ on an existing
document: isSalonOwner(resource.data.salonId). -/
def invitationWrite (auth : Auth) (salonId : String) : Bool :=
  isSalonOwner auth salonId

/-- Create decision of match /invitations/: isAuthenticated(),
request.resource.data.salonId != null, and
isSalonOwner(request.resource.data.salonId). -/
def invitationCreate (auth : Auth) (pSalonId : Option String) : Bool :=
  isAuthenticated auth &&
    (match pSalonId with
     | none => false
     | some s => isSalonOwner auth s)

/-- Read decision of match /loyaltyPrograms/ on an existing document with
salonId field given by the argument: hasSalonAccess(resource.data.salonId). -/
def loyaltyProgramRead (db : TeamMembersDB) (auth : Auth) (salonId : String) : Bool :=
  hasSalonAccess db auth salonId

/-- Read decision of match /customerPasses/ on an existing document:
hasSalonAccess(resource.data.salonId). -/
def customerPassRead (db : TeamMembersDB) (auth : Auth) (salonId : String) : Bool :=
  hasSalonAccess db auth salonId

/-- Read decision of match /visitRecords/ on an existing document:
hasSalonAccess(resource.data.salonId). -/
def visitRecordRead (db : TeamMembersDB) (auth : Auth) (salonId : String) : Bool :=
  hasSalonAccess db auth salonId

/-- Read decision of match /clients/ on an existing document:
hasSalonAccess(resource.data.salonId). -/
def clientRead (db : TeamMembersDB) (auth : Auth) (salonId : String) : Bool :=
  hasSalonAccess db auth salonId

/-- Constraint a query places on the salonId field of its results: some v
restricts results to documents whose salonId equals v, none leaves the field
unconstrained. -/
def matchesFilter (filt : Option String) (salonId : String) : Prop :=
  match filt with
  | none => True
  | some v => salonId = v

/-- List decision on the invitations collection: the rules engine allows a
query only when the document-level read condition is guaranteed for every
document that could satisfy it.  The read condition of invitations depends on
the resource only through its salonId field. -/
def invitationList (auth : Auth) (filt : Option String) : Prop :=
  ∀ salonId : String, matchesFilter filt salonId → invitationRead auth salonId = true

/-- List decision on the loyaltyPrograms collection, as for invitations. -/
def loyaltyProgramList (db : TeamMembersDB) (auth : Auth) (filt : Option String) : Prop :=
  ∀ salonId : String, matchesFilter filt salonId → loyaltyProgramRead db auth salonId = true

/-- List decision on the customerPasses collection, as for invitations. -/
def customerPassList (db : TeamMembersDB) (auth : Auth) (filt : Option String) : Prop :=
  ∀ salonId : String, matchesFilter filt salonId → customerPassRead db auth salonId = true

/-- List decision on the visitRecords collection, as for invitations. -/
def visitRecordList (db : TeamMembersDB) (auth : Auth) (filt : Option String) : Prop :=
  ∀ salonId : String, matchesFilter filt salonId → visitRecordRead db auth salonId = true

/-- List decision on the clients collection, as for invitations. -/
def clientList (db : TeamMembersDB) (auth : Auth) (filt : Option String) : Prop :=
  ∀ salonId : String, matchesFilter filt salonId → clientRead db auth salonId = true

/-- C1: for every Salon document, a read request from an unauthenticated
caller is allowed: the unconditional allow read if true clause makes the
effective read policy on the salons collection public. -/
theorem salons_unauthenticated_read_allowed
    (db : TeamMembersDB) (salonId : String) (doc : SalonDoc) :
    salonRead db none salonId doc = true := by
  simp [salonRead]

/-- C6: isPlatformAdmin evaluates to true if and only if the caller is
authenticated and the caller's email is exactly one of the two hardcoded
addresses. -/
theorem isPlatformAdmin_iff_allowlisted_email (auth : Auth) :
    isPlatformAdmin auth = true ↔
      ∃ u : AuthUser, auth = some u ∧
        (u.email = "ameet@gofisherman.com" ∨ u.email = "ameetk96@gmail.com") := by
  cases auth with
  | none => simp [isPlatformAdmin]
  | some u =>
    simp only [isPlatformAdmin, Bool.or_eq_true, beq_iff_eq, Option.some.injEq]
    constructor
    · intro h
      exact ⟨u, rfl, h⟩
    · rintro ⟨v, hv, h⟩
      cases hv
      exact h

/-- C7: for an authenticated caller with no teamMembers document keyed by
their uid, isTeamMember evaluates to false for every salonId; the missing
document makes the lookup clause false rather than raising a distinct
error (the decision function is total). -/
theorem isTeamMember_false_without_record
    (db : TeamMembersDB) (u : AuthUser) (h : db u.uid = none) (salonId : String) :
    isTeamMember db (some u) salonId = false := by
  simp [isTeamMember, h]

/-- Witness for C7 at a concrete empty database and caller. -/
theorem isTeamMember_false_without_record_witness :
    (fun _ : String => (none : Option TeamMemberDoc)) "alice" = none ∧
      isTeamMember (fun _ => none) (some ⟨"alice", "alice@example.com"⟩) "salon1" = false :=
  ⟨rfl, isTeamMember_false_without_record (fun _ => none)
    ⟨"alice", "alice@example.com"⟩ rfl "salon1"⟩

/-- C3: creating a bookingRequests document is denied when the proposed
salonId is null and allowed for every caller, whatever the authentication
state or the relationship to the salon, when it is non-null. -/
theorem bookingRequests_create_iff_salonId_present
    (db : TeamMembersDB) (auth : Auth) (p : BookingRequestProposed) :
    bookingRequestCreate db auth p = true ↔ p.salonId ≠ none := by
  cases h : p.salonId <;> simp [bookingRequestCreate, h]

/-- C4: creating a teamMembers document is allowed exactly when the caller is
authenticated, the proposed salonId is non-null, and the caller's uid equals
that salonId; membership in any salon is never consulted by the clause. -/
theorem teamMembers_create_iff_owner (auth : Auth) (p : TeamMemberProposed) :
    teamMemberCreate auth p = true ↔
      ∃ (u : AuthUser) (s : String),
        auth = some u ∧ p.salonId = some s ∧ u.uid = s := by
  cases auth with
  | none =>
    simp [teamMemberCreate, isAuthenticated]
  | some u =>
    cases hs : p.salonId with
    | none =>
      simp [teamMemberCreate, isAuthenticated, hs]
    | some s =>
      simp only [teamMemberCreate, isAuthenticated, Option.isSome_some,
        Bool.true_and, hs, isSalonOwner, beq_iff_eq]
      constructor
      · intro h
        exact ⟨u, s, rfl, rfl, h⟩
      · rintro ⟨v, t, hv, ht, h⟩
        cases hv
        cases ht
        exact h

/-- C5: a read of a teamMembers document is denied when the caller is
unauthenticated, and when authenticated with a uid that differs both from the
document's userId and from its salonId (so the caller is not the owner of
that salon). -/
theorem teamMembers_read_denied_for_stranger (doc : TeamMemberDoc) :
    teamMemberRead none doc = false ∧
      ∀ u : AuthUser, u.uid ≠ doc.userId → u.uid ≠ doc.salonId →
        teamMemberRead (some u) doc = false := by
  refine ⟨by simp [teamMemberRead, isAuthenticated], ?_⟩
  intro u h1 h2
  simp [teamMemberRead, isAuthenticated, isSalonOwner, h1, h2]

/-- Witness for C5 at a concrete caller and document. -/
theorem teamMembers_read_denied_for_stranger_witness :
    "bob" ≠ "carol" ∧ "bob" ≠ "alice" ∧
      teamMemberRead (some ⟨"bob", "bob@example.com"⟩)
        ⟨"alice", "carol"⟩ = false :=
  ⟨by decide, by decide,
    (teamMembers_read_denied_for_stranger ⟨"alice", "carol"⟩).2
      ⟨"bob", "bob@example.com"⟩ (by decide) (by decide)⟩

/-- Concrete teamMembers database for the invitations counterexample: bob is
a team member of the salon owned by alice. -/
def cexDb : TeamMembersDB :=
  fun k => if k == "bob" then some ⟨"alice", "bob"⟩ else none

/-- Concrete caller for the invitations counterexample. -/
def cexBob : AuthUser :=
  ⟨"bob", "bob@example.com"⟩

/-- Counterexample to C2: bob satisfies hasSalonAccess of the salon alice (he
is a team member of it), yet a read of an invitation of that salon by bob is
denied, because the invitations match checks isSalonOwner, not
hasSalonAccess. -/
theorem invitations_team_member_read_denied_cex :
    hasSalonAccess cexDb (some cexBob) "alice" = true ∧
      invitationRead (some cexBob) "alice" = false := by
  constructor <;> decide

/-- C2 amended: read and write on an invitations document are allowed exactly
when the caller is the owner of the document's salonId (uid equals salonId),
and create exactly when the caller is authenticated, the proposed salonId is
non-null, and the caller owns it; team members of the salon are denied. -/
theorem invitations_access_owner_only
    (auth : Auth) (salonId : String) (pSalonId : Option String) :
    (invitationRead auth salonId = true ↔
        ∃ u : AuthUser, auth = some u ∧ u.uid = salonId) ∧
      (invitationWrite auth salonId = true ↔
        ∃ u : AuthUser, auth = some u ∧ u.uid = salonId) ∧
      (invitationCreate auth pSalonId = true ↔
        ∃ (u : AuthUser) (s : String),
          auth = some u ∧ pSalonId = some s ∧ u.uid = s) := by
  refine ⟨?_, ?_, ?_⟩
  · cases auth with
    | none => simp [invitationRead, isSalonOwner]
    | some u =>
      simp only [invitationRead, isSalonOwner, beq_iff_eq, Option.some.injEq]
      constructor
      · intro h
        exact ⟨u, rfl, h⟩
      · rintro ⟨v, hv, h⟩
        cases hv
        exact h
  · cases auth with
    | none => simp [invitationWrite, isSalonOwner]
    | some u =>
      simp only [invitationWrite, isSalonOwner, beq_iff_eq, Option.some.injEq]
      constructor
      · intro h
        exact ⟨u, rfl, h⟩
      · rintro ⟨v, hv, h⟩
        cases hv
        exact h
  · cases auth with
    | none => simp [invitationCreate, isAuthenticated]
    | some u =>
      cases hs : pSalonId with
      | none => simp [invitationCreate, isAuthenticated, hs]
      | some s =>
        simp only [invitationCreate, isAuthenticated, Option.isSome_some,
          Bool.true_and, hs, isSalonOwner, beq_iff_eq, Option.some.injEq]
        constructor
        · intro h
          exact ⟨u, s, rfl, rfl, h⟩
        · rintro ⟨v, t, hv, ht, h⟩
          cases hv
          cases ht
          exact h

/-- Two strings of different lengths differ. -/
theorem ne_of_lt_length (a b : String) (h : a.length < b.length) : a ≠ b := by
  intro e
  subst e
  exact lt_irrefl _ h

/-- For every caller there is a salonId the caller does not own. -/
theorem exists_not_isSalonOwner (auth : Auth) :
    ∃ s : String, isSalonOwner auth s = false := by
  cases auth with
  | none => exact ⟨"", rfl⟩
  | some u =>
    refine ⟨u.uid ++ "x", ?_⟩
    simp only [isSalonOwner, beq_eq_false_iff_ne, ne_eq]
    apply ne_of_lt_length
    have hx : ("x" : String).length = 1 := rfl
    simp [String.length_append, hx]

/-- For every caller and database there is a salonId to which the caller has
no salon access. -/
theorem exists_not_hasSalonAccess (db : TeamMembersDB) (auth : Auth) :
    ∃ s : String, hasSalonAccess db auth s = false := by
  cases auth with
  | none => exact ⟨"", rfl⟩
  | some u =>
    cases hdb : db u.uid with
    | none =>
      refine ⟨u.uid ++ "x", ?_⟩
      simp only [hasSalonAccess, isTeamMember, hdb, Bool.or_false,
        isSalonOwner, beq_eq_false_iff_ne, ne_eq]
      apply ne_of_lt_length
      have hx : ("x" : String).length = 1 := rfl
      simp [String.length_append, hx]
    | some rec =>
      refine ⟨u.uid ++ rec.salonId ++ "x", ?_⟩
      simp only [hasSalonAccess, isSalonOwner, isTeamMember, hdb,
        Bool.or_eq_false_iff, beq_eq_false_iff_ne, ne_eq]
      constructor
      · apply ne_of_lt_length
        have hx : ("x" : String).length = 1 := rfl
        simp [String.length_append, hx]
        omega
      · apply ne_of_lt_length
        have hx : ("x" : String).length = 1 := rfl
        simp [String.length_append, hx]
        omega

/-- A universally guaranteed condition over a salonId filter holds exactly
when the filter pins the field to a value satisfying the condition, provided
the condition is not universally true. -/
theorem list_guarantee_iff (cond : String → Bool) (filt : Option String)
    (h : ∃ s, cond s = false) :
    (∀ s : String, matchesFilter filt s → cond s = true) ↔
      ∃ v, filt = some v ∧ cond v = true := by
  cases filt with
  | none =>
    simp only [matchesFilter]
    constructor
    · intro hall
      obtain ⟨s, hs⟩ := h
      simp [hall s trivial] at hs
    · rintro ⟨v, hv, _⟩
      cases hv
  | some v =>
    simp only [matchesFilter]
    constructor
    · intro hall
      exact ⟨v, rfl, hall v rfl⟩
    · rintro ⟨w, hw, hcw⟩ s hs
      cases hw
      subst hs
      exact hcw

/-- Counterexample to C9: the owner of the salon alice, issuing a list query
on invitations whose results are constrained to salonId alice, is allowed,
because the read privilege of the document-level invitations match covers
list and is guaranteed on every possible result of that query. -/
theorem invitations_owner_filtered_list_allowed_cex :
    invitationList (some ⟨"alice", "alice@example.com"⟩) (some "alice") := by
  intro s hs
  rw [show s = "alice" from hs]
  decide

/-- C9 amended: a list query on invitations, loyaltyPrograms, customerPasses,
visitRecords or clients is allowed exactly when the query constrains salonId
to a value for which the caller passes the document-level read condition
(ownership for invitations, salon access for the other four); in particular
every unconstrained list and every list by a caller without such a salonId is
denied. -/
theorem scoped_collections_list_iff_filtered_access
    (db : TeamMembersDB) (auth : Auth) (filt : Option String) :
    (invitationList auth filt ↔
        ∃ v, filt = some v ∧ isSalonOwner auth v = true) ∧
      (loyaltyProgramList db auth filt ↔
        ∃ v, filt = some v ∧ hasSalonAccess db auth v = true) ∧
      (customerPassList db auth filt ↔
        ∃ v, filt = some v ∧ hasSalonAccess db auth v = true) ∧
      (visitRecordList db auth filt ↔
        ∃ v, filt = some v ∧ hasSalonAccess db auth v = true) ∧
      (clientList db auth filt ↔
        ∃ v, filt = some v ∧ hasSalonAccess db auth v = true) :=
  ⟨list_guarantee_iff (fun s => invitationRead auth s) filt
      (exists_not_isSalonOwner auth),
    list_guarantee_iff (fun s => loyaltyProgramRead db auth s) filt
      (exists_not_hasSalonAccess db auth),
    list_guarantee_iff (fun s => customerPassRead db auth s) filt
      (exists_not_hasSalonAccess db auth),
    list_guarantee_iff (fun s => visitRecordRead db auth s) filt
      (exists_not_hasSalonAccess db auth),
    list_guarantee_iff (fun s => clientRead db auth s) filt
      (exists_not_hasSalonAccess db auth)⟩

/-- Status of a booking request, the closed union of the BookingRequest
status field. -/
inductive BStatus where
  | pending
  | contacted
  | booked
  | notBooked
  | providerRequested
deriving Repr, DecidableEq

/-- Booking request record, restricted to the fields the clients-page
aggregation reads. -/
structure BRequest where
  clientName : String
  clientEmail : String
  clientPhone : String
  status : BStatus
  createdAt : Nat
  notes : Option String
deriving Repr, DecidableEq

/-- Aggregated client entry built by fetchClients.  The lastRequest field of
the page is a date string produced by Date toString, which renders whole
seconds; the string determines and is determined by the createdAt value
truncated to the second, so the field is modelled as that truncated value. -/
structure ClientAgg where
  id : String
  name : String
  email : String
  phone : String
  totalRequests : Nat
  completedRequests : Nat
  totalSpent : Nat
  lastRequest : Nat
  notes : String
  requests : List BRequest
deriving Repr, DecidableEq

/-- Lowercasing of a string, character by character, modelling the
JavaScript toLowerCase call on the email strings of the page.  Defined over
the character list of the string so that it evaluates by kernel reduction. -/
def lowerString (s : String) : String :=
  String.mk (s.data.map Char.toLower)

/-- Grouping key of a request: request.clientEmail.toLowerCase(). -/
def lowEmail (r : BRequest) : String :=
  lowerString r.clientEmail

/-- Millisecond time truncated to whole seconds, the precision of the
Date toString rendering stored in lastRequest. -/
def dateTrunc (t : Nat) : Nat :=
  t / 1000 * 1000

/-- Fresh map entry created when a grouping key is first seen, mirroring the
clientMap.set call: counters start at zero, lastRequest starts at the
rendering of the first request's createdAt, notes is the first request's
notes or the empty string. -/
def newClient (r : BRequest) : ClientAgg :=
  { id := lowEmail r
    name := r.clientName
    email := r.clientEmail
    phone := r.clientPhone
    totalRequests := 0
    completedRequests := 0
    totalSpent := 0
    lastRequest := dateTrunc r.createdAt
    notes := r.notes.getD ""
    requests := [] }

/-- Net effect on a map entry of processing one request, mirroring the loop
body: totalRequests is incremented and the request appended; lastRequest is
replaced by the rendering of this request's createdAt when that createdAt
exceeds the parsed stored rendering (the comparison reads the entry before
this update); when the status is booked, completedRequests is incremented and
totalSpent increased by the 75 flat estimate, otherwise both are untouched. -/
def updateClient (r : BRequest) (c : ClientAgg) : ClientAgg :=
  { c with
    totalRequests := c.totalRequests + 1
    requests := c.requests ++ [r]
    lastRequest :=
      if c.lastRequest < r.createdAt then dateTrunc r.createdAt else c.lastRequest
    completedRequests :=
      if r.status == BStatus.booked then c.completedRequests + 1
      else c.completedRequests
    totalSpent :=
      if r.status == BStatus.booked then c.totalSpent + 75 else c.totalSpent }

/-- One iteration of the forEach loop over the insertion-ordered map,
modelled as an association list: a missing key is first given a fresh entry
at the end, then the entry at the key is updated. -/
def insertRequest (m : List (String × ClientAgg)) (r : BRequest) :
    List (String × ClientAgg) :=
  if m.any (fun p => p.fst == lowEmail r) then
    m.map (fun p => if p.fst == lowEmail r then (p.fst, updateClient r p.snd) else p)
  else
    m ++ [(lowEmail r, updateClient r (newClient r))]

/-- The fetchClients aggregation: fold the requests through the map and
return the values in insertion order, mirroring Array.from of
clientMap.values(). -/
def fetchClients (rs : List BRequest) : List ClientAgg :=
  (rs.foldl insertRequest []).map Prod.snd

/-- First-occurrence deduplication in encounter order, the key sequence a
JavaScript Map develops under repeated set calls. -/
def dedupKeys (l : List String) : List String :=
  l.foldl (fun acc k => if k ∈ acc then acc else acc ++ [k]) []

/-- Requests of the group with lowercased email k, in fetch order. -/
def groupOf (rs : List BRequest) (k : String) : List BRequest :=
  rs.filter (fun r => lowEmail r == k)

/-- Largest createdAt of a request list (zero for the empty list). -/
def maxCreated (l : List BRequest) : Nat :=
  l.foldl (fun acc r => Nat.max acc r.createdAt) 0

/-- Concrete request with a mixed-case email, used by the aggregation
counterexample and witnesses. -/
def rMixedUpper : BRequest :=
  { clientName := "Ann"
    clientEmail := "A@x.com"
    clientPhone := "1"
    status := BStatus.booked
    createdAt := 1500
    notes := none }

/-- Concrete request whose email differs from that of rMixedUpper only in
case, used by the aggregation counterexample and witnesses. -/
def rMixedLower : BRequest :=
  { clientName := "Ann"
    clientEmail := "a@x.com"
    clientPhone := "1"
    status := BStatus.pending
    createdAt := 2700
    notes := none }

/-- Unfolding of dedupKeys over appending one key. -/
theorem dedupKeys_append (l : List String) (k : String) :
    dedupKeys (l ++ [k]) =
      if k ∈ dedupKeys l then dedupKeys l else dedupKeys l ++ [k] := by
  simp [dedupKeys, List.foldl_append]

/-- Membership in the dedup fold, generalised over the accumulator. -/
theorem mem_foldl_dedup (l : List String) :
    ∀ (acc : List String) (k : String),
      (k ∈ l.foldl (fun acc k => if k ∈ acc then acc else acc ++ [k]) acc) ↔
        k ∈ acc ∨ k ∈ l := by
  induction l with
  | nil =>
    intro acc k
    simp
  | cons a l ih =>
    intro acc k
    rw [List.foldl_cons, ih]
    by_cases ha : a ∈ acc
    · rw [if_pos ha]
      simp only [List.mem_cons]
      constructor
      · rintro (h | h)
        · exact Or.inl h
        · exact Or.inr (Or.inr h)
      · rintro (h | h | h)
        · exact Or.inl h
        · exact Or.inl (h ▸ ha)
        · exact Or.inr h
    · rw [if_neg ha]
      simp [or_assoc]

/-- The deduplicated keys are exactly the keys. -/
theorem mem_dedupKeys (l : List String) (k : String) :
    k ∈ dedupKeys l ↔ k ∈ l := by
  rw [dedupKeys, mem_foldl_dedup]
  simp

/-- The dedup fold returns a list without duplicates, generalised over the
accumulator. -/
theorem nodup_foldl_dedup (l : List String) :
    ∀ acc : List String, acc.Nodup →
      (l.foldl (fun acc k => if k ∈ acc then acc else acc ++ [k]) acc).Nodup := by
  induction l with
  | nil =>
    intro acc h
    simpa using h
  | cons a l ih =>
    intro acc h
    rw [List.foldl_cons]
    by_cases ha : a ∈ acc
    · rw [if_pos ha]
      exact ih acc h
    · rw [if_neg ha]
      refine ih _ ?_
      rw [List.nodup_append]
      exact ⟨h, List.nodup_singleton a, by
        simp only [List.disjoint_singleton]
        exact ha⟩

/-- The deduplicated keys carry no duplicate. -/
theorem nodup_dedupKeys (l : List String) : (dedupKeys l).Nodup :=
  nodup_foldl_dedup l [] List.nodup_nil

/-- Appending a request of the group extends the group. -/
theorem groupOf_append_match (rs : List BRequest) (r : BRequest) (k : String)
    (h : lowEmail r = k) :
    groupOf (rs ++ [r]) k = groupOf rs k ++ [r] := by
  simp [groupOf, List.filter_append, h]

/-- Appending a request of another group leaves the group unchanged. -/
theorem groupOf_append_other (rs : List BRequest) (r : BRequest) (k : String)
    (h : lowEmail r ≠ k) :
    groupOf (rs ++ [r]) k = groupOf rs k := by
  simp [groupOf, List.filter_append, h]

/-- Largest createdAt of a list extended by one request. -/
theorem maxCreated_append (g : List BRequest) (r : BRequest) :
    maxCreated (g ++ [r]) = Nat.max (maxCreated g) r.createdAt := by
  simp [maxCreated, List.foldl_append]

/-- The stored rendering update of the page keeps the rendering of the
running maximum: comparing the exact new time against the truncated stored
one misfires only within a second, where the rendering is unchanged. -/
theorem dateTrunc_update (M t : Nat) :
    (if dateTrunc M < t then dateTrunc t else dateTrunc M) =
      dateTrunc (Nat.max M t) := by
  unfold dateTrunc
  have hm : Nat.max M t = if M ≤ t then t else M := rfl
  rw [hm]
  split <;> split <;> omega

/-- Correctness of one map entry: it summarises exactly the group of
processed requests whose lowercased email is its key. -/
def entryOk (rs : List BRequest) (p : String × ClientAgg) : Prop :=
  p.snd.id = p.fst ∧
  p.snd.totalRequests = (groupOf rs p.fst).length ∧
  p.snd.requests = groupOf rs p.fst ∧
  p.snd.lastRequest = dateTrunc (maxCreated (groupOf rs p.fst)) ∧
  p.snd.completedRequests =
    ((groupOf rs p.fst).filter (fun q => q.status == BStatus.booked)).length ∧
  p.snd.totalSpent = 75 * p.snd.completedRequests

/-- Loop invariant of the aggregation fold: the keys are the deduplicated
lowercased emails of the processed requests, in first-occurrence order, and
every entry is correct for its group. -/
def AggInv (rs : List BRequest) (m : List (String × ClientAgg)) : Prop :=
  m.map Prod.fst = dedupKeys (rs.map lowEmail) ∧ ∀ p ∈ m, entryOk rs p

/-- Updating the entry of the request's own group keeps it correct. -/
theorem entryOk_update (rs : List BRequest) (r : BRequest) (k : String)
    (c : ClientAgg) (h : entryOk rs (k, c)) (hk : lowEmail r = k) :
    entryOk (rs ++ [r]) (k, updateClient r c) := by
  obtain ⟨hid, htot, hreq, hlast, hcomp, hspent⟩ := h
  dsimp only at hid htot hreq hlast hcomp hspent
  have hg := groupOf_append_match rs r k hk
  unfold entryOk
  dsimp only [updateClient]
  rw [hg]
  refine ⟨hid, ?_, ?_, ?_, ?_, ?_⟩
  · simp [htot]
  · rw [hreq]
  · rw [maxCreated_append, hlast]
    exact dateTrunc_update _ _
  · rw [List.filter_append]
    cases hb : r.status == BStatus.booked
    · simp [hb, hcomp]
    · simp [hb, hcomp]
  · cases hb : r.status == BStatus.booked
    · simpa [hb] using hspent
    · simp only [hb, if_true]
      omega

/-- An entry of another group is untouched by the appended request. -/
theorem entryOk_other (rs : List BRequest) (r : BRequest)
    (p : String × ClientAgg) (h : entryOk rs p) (hk : lowEmail r ≠ p.fst) :
    entryOk (rs ++ [r]) p := by
  unfold entryOk at h ⊢
  rw [groupOf_append_other rs r p.fst hk]
  exact h

/-- A fresh entry updated with its first request is correct when its group
was empty before. -/
theorem entryOk_new (rs : List BRequest) (r : BRequest)
    (h : groupOf rs (lowEmail r) = []) :
    entryOk (rs ++ [r]) (lowEmail r, updateClient r (newClient r)) := by
  have hg := groupOf_append_match rs r (lowEmail r) rfl
  rw [h, List.nil_append] at hg
  unfold entryOk
  dsimp only [updateClient, newClient]
  rw [hg]
  refine ⟨rfl, by simp, by simp, ?_, ?_, ?_⟩
  · have hm : maxCreated [r] = Nat.max 0 r.createdAt := rfl
    have hm2 : Nat.max 0 r.createdAt = if 0 ≤ r.createdAt then r.createdAt else 0 := rfl
    rw [hm, hm2, if_pos (Nat.zero_le _)]
    split <;> rfl
  · cases hb : r.status == BStatus.booked <;> simp [hb]
  · cases hb : r.status == BStatus.booked <;> simp [hb]

/-- Processing one request preserves the aggregation invariant. -/
theorem aggInv_insert (rs : List BRequest) (m : List (String × ClientAgg))
    (r : BRequest) (h : AggInv rs m) : AggInv (rs ++ [r]) (insertRequest m r) := by
  obtain ⟨hkeys, hent⟩ := h
  unfold insertRequest
  by_cases hmem : (m.any (fun p => p.fst == lowEmail r)) = true
  · rw [if_pos hmem]
    have hkmem : lowEmail r ∈ m.map Prod.fst := by
      rw [List.any_eq_true] at hmem
      obtain ⟨p, hp, he⟩ := hmem
      exact List.mem_map.mpr ⟨p, hp, beq_iff_eq.mp he⟩
    constructor
    · rw [List.map_map]
      have hfst : ∀ p ∈ m,
          (Prod.fst ∘ fun p : String × ClientAgg =>
            if p.fst == lowEmail r then (p.fst, updateClient r p.snd) else p) p =
            Prod.fst p := by
        intro p _
        dsimp only [Function.comp]
        split <;> rfl
      rw [List.map_congr_left hfst, hkeys, List.map_append]
      simp only [List.map_cons, List.map_nil]
      rw [dedupKeys_append, if_pos (hkeys ▸ hkmem)]
    · intro q hq
      rw [List.mem_map] at hq
      obtain ⟨p, hp, hq⟩ := hq
      by_cases hpk : (p.fst == lowEmail r) = true
      · rw [if_pos hpk] at hq
        rw [← hq]
        exact entryOk_update rs r p.fst p.snd (hent p hp)
          (beq_iff_eq.mp hpk).symm
      · rw [if_neg hpk] at hq
        rw [← hq]
        exact entryOk_other rs r p (hent p hp)
          (fun he => hpk (beq_iff_eq.mpr he.symm))
  · rw [if_neg hmem]
    have hkmem : lowEmail r ∉ m.map Prod.fst := by
      intro hc
      apply hmem
      rw [List.any_eq_true]
      obtain ⟨p, hp, he⟩ := List.mem_map.mp hc
      exact ⟨p, hp, beq_iff_eq.mpr he⟩
    have hnotin : lowEmail r ∉ rs.map lowEmail := by
      rw [← mem_dedupKeys, ← hkeys]
      exact hkmem
    have hgnil : groupOf rs (lowEmail r) = [] := by
      rw [groupOf, List.filter_eq_nil_iff]
      intro a ha hba
      exact hnotin (List.mem_map.mpr ⟨a, ha, beq_iff_eq.mp hba⟩)
    constructor
    · have hne : lowEmail r ∉ dedupKeys (List.map lowEmail rs) := by
        rw [← hkeys]
        exact hkmem
      rw [List.map_append, hkeys, List.map_append]
      simp only [List.map_cons, List.map_nil]
      rw [dedupKeys_append, if_neg hne]
    · intro q hq
      rw [List.mem_append] at hq
      rcases hq with hq | hq
      · refine entryOk_other rs r q (hent q hq) ?_
        intro he
        exact hkmem (List.mem_map.mpr ⟨q, hq, he.symm⟩)
      · rw [List.mem_singleton] at hq
        rw [hq]
        exact entryOk_new rs r hgnil

/-- The aggregation invariant propagates through the fold. -/
theorem aggInv_foldl (todo : List BRequest) :
    ∀ (rs : List BRequest) (m : List (String × ClientAgg)),
      AggInv rs m → AggInv (rs ++ todo) (todo.foldl insertRequest m) := by
  induction todo with
  | nil =>
    intro rs m h
    simpa using h
  | cons r todo ih =>
    intro rs m h
    rw [List.foldl_cons]
    have h3 := ih (rs ++ [r]) _ (aggInv_insert rs m r h)
    simpa [List.append_assoc] using h3

/-- The fold underlying fetchClients satisfies the invariant. -/
theorem aggInv_fetch (rs : List BRequest) :
    AggInv rs (rs.foldl insertRequest []) := by
  have h0 : AggInv [] [] := ⟨rfl, by intro p hp; cases hp⟩
  simpa using aggInv_foldl rs [] [] h0

/-- Counterexample to C8: two requests whose emails differ only in case are
merged into a single entry, so there is one entry for two distinct client
emails, and the entry's totalRequests (2) differs from the number of requests
carrying the entry's email field (1). -/
theorem clients_grouping_case_insensitive_cex :
    rMixedUpper.clientEmail ≠ rMixedLower.clientEmail ∧
      (fetchClients [rMixedUpper, rMixedLower]).length = 1 ∧
      (fetchClients [rMixedUpper, rMixedLower]).map (fun c => c.email) =
        ["A@x.com"] ∧
      (fetchClients [rMixedUpper, rMixedLower]).map (fun c => c.totalRequests) =
        [2] ∧
      ([rMixedUpper, rMixedLower].filter
        (fun q => q.clientEmail == "A@x.com")).length = 1 := by
  refine ⟨by decide, by decide, by decide, by decide, by decide⟩

/-- C8 amended: the aggregation produces exactly one client entry per
distinct lowercased client email (the ids are without duplicate and cover
exactly the lowercased emails); each entry's totalRequests counts the
requests of its lowercased-email group, its requests field holds exactly
that group in fetch order, and its lastRequest is the Date-toString
rendering (whole-second truncation) of the latest createdAt of the group. -/
theorem clients_aggregation_by_lowercased_email (rs : List BRequest) :
    ((fetchClients rs).map (fun c => c.id)).Nodup ∧
      (∀ k : String,
        k ∈ (fetchClients rs).map (fun c => c.id) ↔ k ∈ rs.map lowEmail) ∧
      ∀ c ∈ fetchClients rs,
        c.totalRequests = (groupOf rs c.id).length ∧
        c.requests = groupOf rs c.id ∧
        c.lastRequest = dateTrunc (maxCreated (groupOf rs c.id)) := by
  obtain ⟨hkeys, hent⟩ := aggInv_fetch rs
  have hids : (fetchClients rs).map (fun c => c.id) =
      (rs.foldl insertRequest []).map Prod.fst := by
    unfold fetchClients
    rw [List.map_map]
    exact List.map_congr_left (fun p hp => (hent p hp).1)
  refine ⟨?_, ?_, ?_⟩
  · rw [hids, hkeys]
    exact nodup_dedupKeys _
  · intro k
    rw [hids, hkeys, mem_dedupKeys]
  · intro c hc
    unfold fetchClients at hc
    rw [List.mem_map] at hc
    obtain ⟨p, hp, hpc⟩ := hc
    obtain ⟨hid, htot, hreq, hlast, _, _⟩ := hent p hp
    rw [← hpc]
    refine ⟨?_, ?_, ?_⟩
    · rw [hid]
      exact htot
    · rw [hid]
      exact hreq
    · rw [hid]
      exact hlast

/-- Concrete aggregated entry of the two mixed-case requests, used by the
aggregation witnesses. -/
def cMixed : ClientAgg :=
  { id := "a@x.com"
    name := "Ann"
    email := "A@x.com"
    phone := "1"
    totalRequests := 2
    completedRequests := 1
    totalSpent := 75
    lastRequest := 2000
    notes := ""
    requests := [rMixedUpper, rMixedLower] }

/-- Witness for the amended C8 at the concrete two-request input. -/
theorem clients_aggregation_by_lowercased_email_witness :
    cMixed ∈ fetchClients [rMixedUpper, rMixedLower] ∧
      (cMixed.totalRequests =
          (groupOf [rMixedUpper, rMixedLower] cMixed.id).length ∧
        cMixed.requests = groupOf [rMixedUpper, rMixedLower] cMixed.id ∧
        cMixed.lastRequest =
          dateTrunc (maxCreated (groupOf [rMixedUpper, rMixedLower] cMixed.id))) :=
  ⟨by decide,
    (clients_aggregation_by_lowercased_email [rMixedUpper, rMixedLower]).2.2
      cMixed (by decide)⟩

/-- C10: in every aggregated entry, totalSpent is exactly 75 times
completedRequests, and completedRequests counts exactly the entry's requests
whose status is booked; other statuses contribute to neither counter. -/
theorem clients_totalSpent_eq_75_times_completed (rs : List BRequest) :
    ∀ c ∈ fetchClients rs,
      c.totalSpent = 75 * c.completedRequests ∧
      c.completedRequests =
        (c.requests.filter (fun q => q.status == BStatus.booked)).length := by
  obtain ⟨_, hent⟩ := aggInv_fetch rs
  intro c hc
  unfold fetchClients at hc
  rw [List.mem_map] at hc
  obtain ⟨p, hp, hpc⟩ := hc
  obtain ⟨_, _, hreq, _, hcomp, hspent⟩ := hent p hp
  rw [← hpc]
  refine ⟨hspent, ?_⟩
  rw [hreq]
  exact hcomp

/-- Witness for C10 at the concrete two-request input. -/
theorem clients_totalSpent_eq_75_times_completed_witness :
    cMixed ∈ fetchClients [rMixedUpper, rMixedLower] ∧
      (cMixed.totalSpent = 75 * cMixed.completedRequests ∧
        cMixed.completedRequests =
          (cMixed.requests.filter (fun q => q.status == BStatus.booked)).length) :=
  ⟨by decide,
    clients_totalSpent_eq_75_times_completed [rMixedUpper, rMixedLower]
      cMixed (by decide)⟩
